import Mathlib

/-!
Verification of the itinerary scheduling core of `src/app.py` (a rule-based
travel-day planner).  The Python source is shallowly embedded here:

* free text is `String` / `List Char`; Python `str.strip`, `str.lower` and the
  dash normalisation are modelled character by character (ASCII case folding);
* the three `re.search` calls of `parse_duration_to_minutes` are modelled by
  deterministic left-to-right scanners (`searchHourRange`, `searchHourSingle`,
  `searchMinutes`) that implement the leftmost-match semantics of the concrete
  patterns used by the code, with `\d` and `\s` read as their ASCII classes;
* the captured numerals are exact decimals and `round` is round-half-to-even
  (`pyRound` / `pyRoundFrac`).  The source computes the hour branches in
  binary64 floats: on the short ASCII decimal durations the repository
  constructs (every catalog and synthesized string) float arithmetic is
  exact and the embedding coincides with CPython, while extreme numerals
  (precision loss beyond 2^53, `OverflowError` past the float range) and
  Unicode digit classes lie outside this model — properties quantified over
  arbitrary text therefore cannot be settled against this parser model, only
  properties of the texts the program itself builds;
* clock arithmetic is in minutes from the day's midnight (`Nat`), matching the
  `datetime` arithmetic of the source, with 12-hour formatting applied only at
  export time exactly where the source formats;
* the mutable `used_names` set and the `must_idx` cursor are threaded
  explicitly through the per-day recursion.
-/

namespace TravelPlanner

/-- Python whitespace used by `str.strip` and by `\s` of the regexes,
restricted to the ASCII range that the inputs use. -/
def isPySpace (c : Char) : Bool :=
  c = ' ' || c = '\t' || c = '\n' || c = '\r' || c = '\x0b' || c = '\x0c'

/-- ASCII case folding, the fragment of Python `str.lower` the data exercises. -/
def pyLowerChar (c : Char) : Char :=
  if 'A' ≤ c ∧ c ≤ 'Z' then Char.ofNat (c.toNat + 32) else c

/-- `str.lower` on a character list. -/
def pyLower (l : List Char) : List Char := l.map pyLowerChar

/-- `str.strip()`: drop leading and trailing whitespace. -/
def pyStrip (l : List Char) : List Char :=
  ((l.dropWhile isPySpace).reverse.dropWhile isPySpace).reverse

/-- `str.strip()` on a `String`. -/
def pyStripS (s : String) : String := ⟨pyStrip s.data⟩

/-- `str.lower()` on a `String`. -/
def pyLowerS (s : String) : String := ⟨pyLower s.data⟩

/-- `s.replace("–", "-").replace("—", "-")`: both unicode dashes become `'-'`. -/
def dashFix (l : List Char) : List Char :=
  l.map fun c => if c = '–' ∨ c = '—' then '-' else c

/-- CPython `round` to an integer: round half to even (banker's rounding).
Used in specification statements; the executable path below rounds the same
value through `pyRoundFrac` on an exact fraction. -/
def pyRound (q : ℚ) : ℤ :=
  if q - (⌊q⌋ : ℚ) < 1/2 then ⌊q⌋
  else if 1/2 < q - (⌊q⌋ : ℚ) then ⌊q⌋ + 1
  else if 2 ∣ ⌊q⌋ then ⌊q⌋ else ⌊q⌋ + 1

/-- Round half to even of the nonnegative fraction `p / q`, in plain natural
arithmetic (the kernel-friendly form of `pyRound`). -/
def pyRoundFrac (p q : ℕ) : ℕ :=
  if 2 * (p % q) < q then p / q
  else if q < 2 * (p % q) then p / q + 1
  else if p / q % 2 = 0 then p / q else p / q + 1

/-- Value of a digit run, most significant first. -/
def digitsVal (ds : List Char) : ℕ :=
  ds.foldl (fun a c => 10 * a + (c.toNat - 48)) 0

/-- A decimal numeral captured by `(\d+(\.\d+)?)`: the scaled integer and the
number of fraction digits, denoting `num / 10 ^ exp`. -/
structure NumTok where
  num : ℕ
  exp : ℕ
deriving DecidableEq, Repr, Inhabited

/-- The exact rational a captured numeral denotes (Python parses it with
`float`; the inputs in scope are short decimals, modelled exactly). -/
def tokVal (t : NumTok) : ℚ := (t.num : ℚ) / (10 : ℚ) ^ t.exp

/-- Greedy match of `\d+(\.\d+)?` at the head of the input: the captured
numeral and the rest.  The optional fraction is taken exactly when a `'.'`
followed by a digit comes next, which coincides with the backtracking regex
because a leftover `'.'` can never match the `\s*`, `'-'` or unit that follows
the number in the three patterns of the source. -/
def scanNumber (l : List Char) : Option (NumTok × List Char) :=
  let ds := l.takeWhile Char.isDigit
  let r := l.dropWhile Char.isDigit
  if ds.isEmpty then none
  else
    match r with
    | '.' :: r2 =>
      let fs := r2.takeWhile Char.isDigit
      let r3 := r2.dropWhile Char.isDigit
      if fs.isEmpty then some (⟨digitsVal ds, 0⟩, r)
      else some (⟨digitsVal ds * 10 ^ fs.length + digitsVal fs, fs.length⟩, r3)
    | _ => some (⟨digitsVal ds, 0⟩, r)

/-- `\s*`: skip whitespace. -/
def skipSpaces (l : List Char) : List Char := l.dropWhile isPySpace

/-- Does `pre` start the list `l`? -/
def startsWith : List Char → List Char → Bool
  | [], _ => true
  | _ :: _, [] => false
  | p :: ps, c :: cs => p = c && startsWith ps cs

/-- `(hour|hours|hr|hrs)` begins here: a prefix `hour` or `hr` suffices, the
longer alternatives extend the shorter ones. -/
def hourUnitAt (l : List Char) : Bool :=
  startsWith ['h', 'o', 'u', 'r'] l || startsWith ['h', 'r'] l

/-- `(min|mins|minute|minutes)` begins here: a prefix `min` suffices. -/
def minUnitAt (l : List Char) : Bool :=
  startsWith ['m', 'i', 'n'] l

/-- Match `(\d+(\.\d+)?)\s*-\s*(\d+(\.\d+)?)\s*(hour|hours|hr|hrs)` anchored at
the head of the input, returning the two captured numbers. -/
def matchRangeAt (l : List Char) : Option (NumTok × NumTok) :=
  match scanNumber l with
  | none => none
  | some (a, r1) =>
    match skipSpaces r1 with
    | '-' :: r2 =>
      match scanNumber (skipSpaces r2) with
      | none => none
      | some (b, r3) => if hourUnitAt (skipSpaces r3) then some (a, b) else none
    | _ => none

/-- Match `(\d+(\.\d+)?)\s*(hour|hours|hr|hrs)` anchored at the head. -/
def matchHourAt (l : List Char) : Option NumTok :=
  match scanNumber l with
  | none => none
  | some (a, r1) => if hourUnitAt (skipSpaces r1) then some a else none

/-- Match `(\d+)\s*(min|mins|minute|minutes)` anchored at the head. -/
def matchMinAt (l : List Char) : Option ℕ :=
  let ds := l.takeWhile Char.isDigit
  let r := l.dropWhile Char.isDigit
  if ds.isEmpty then none
  else if minUnitAt (skipSpaces r) then some (digitsVal ds) else none

/-- `re.search` for the hour-range pattern: try each position left to right. -/
def searchHourRange : List Char → Option (NumTok × NumTok)
  | [] => none
  | l@(_ :: t) =>
    match matchRangeAt l with
    | some r => some r
    | none => searchHourRange t

/-- `re.search` for the single-hours pattern. -/
def searchHourSingle : List Char → Option NumTok
  | [] => none
  | l@(_ :: t) =>
    match matchHourAt l with
    | some r => some r
    | none => searchHourSingle t

/-- `re.search` for the minutes pattern. -/
def searchMinutes : List Char → Option ℕ
  | [] => none
  | l@(_ :: t) =>
    match matchMinAt l with
    | some r => some r
    | none => searchMinutes t

/-- The normalised text the three searches run on: `strip`, `lower`, dashes. -/
def normDuration (t : String) : List Char := dashFix (pyLower (pyStrip t.data))

/-- `parse_duration_to_minutes` of `src/app.py` (lines 25–50).  The hour
branches compute `int(round(...))` of the exact value: for the range,
`(a + b) / 2 * 60 = 30 * (a + b) = (30 * (n₁·10^e₂ + n₂·10^e₁)) / 10^(e₁+e₂)`,
rounded half to even as CPython's `round` does
(`pyRoundFrac_eq_pyRound` ties this to the rational-valued `pyRound`).
Exact-decimal caveat: the source evaluates these branches with `float`,
identical to the exact value on every duration string the repository
constructs, but not on arbitrary text (binary64 rounds numerals past 2^53 and
raises `OverflowError` past its range; `\d` also matches Unicode digits). -/
def parse_duration_to_minutes (duration_text : String) : ℤ :=
  match searchHourRange (normDuration duration_text) with
  | some (a, b) =>
    (pyRoundFrac (30 * (a.num * 10 ^ b.exp + b.num * 10 ^ a.exp))
      (10 ^ (a.exp + b.exp)) : ℤ)
  | none =>
    match searchHourSingle (normDuration duration_text) with
    | some h => (pyRoundFrac (60 * h.num) (10 ^ h.exp) : ℤ)
    | none =>
      match searchMinutes (normDuration duration_text) with
      | some n => (n : ℤ)
      | none => 90

/-- Two-digit zero padding, for `%M`, `%d`. -/
def pad2 (n : ℕ) : String :=
  if n < 10 then "0" ++ toString n else toString n

/-- Four-digit zero padding, for `%Y` of `str(date)`. -/
def pad4 (n : ℕ) : String :=
  if n < 10 then "000" ++ toString n
  else if n < 100 then "00" ++ toString n
  else if n < 1000 then "0" ++ toString n
  else toString n

/-- `fmt_hhmm` (lines 53–54): `strftime("%I:%M %p").lstrip("0")` of the wall
clock reached after `m` minutes from the day's midnight. -/
def fmt_hhmm (m : ℕ) : String :=
  let h24 := m / 60 % 24
  let mi := m % 60
  let h12 := if h24 % 12 = 0 then 12 else h24 % 12
  toString h12 ++ ":" ++ pad2 mi ++ " " ++ (if h24 < 12 then "AM" else "PM")

/-- `travel_time_minutes` (lines 57–66). -/
def travel_time_minutes (transport : String) : ℕ :=
  if transport = "Walking" then 15
  else if transport = "Public Transit" then 25
  else if transport = "Rideshare/Taxi" then 18
  else if transport = "Rental Car" then 20
  else 20

/-- Stops per day from the pace (lines 315–320). -/
def stopsPerDay (pace : String) : ℕ :=
  if pace = "Relaxed" then 2
  else if pace = "Packed" then 4
  else 3

/-- `safe_list_join` (lines 69–71). -/
def safe_list_join (items : List String) : String :=
  let xs := (items.map pyStripS).filter (· ≠ "")
  if xs.isEmpty then "—" else String.intercalate ", " xs

/-- Proleptic Gregorian date of a Python `date.toordinal()` value
(`1 = 0001-01-01`): year, month, day. -/
def civilFromOrdinal (n : ℤ) : ℤ × ℕ × ℕ :=
  let z := n + 305
  let era := z.fdiv 146097
  let doe := (z - era * 146097).toNat
  let yoe := (doe - doe / 1460 + doe / 36524 - doe / 146097) / 365
  let y := era * 400 + yoe
  let doy := doe - (365 * yoe + yoe / 4 - yoe / 100)
  let mp := (5 * doy + 2) / 153
  let d := doy - (153 * mp + 2) / 5 + 1
  let m := if mp < 10 then mp + 3 else mp - 9
  (if m ≤ 2 then y + 1 else y, m, d)

/-- `%a` weekday abbreviation; Python ordinal 1 is a Monday. -/
def weekdayAbbrev (ordinal : ℤ) : String :=
  (["Mon", "Tue", "Wed", "Thu", "Fri", "Sat", "Sun"]).getD
    ((ordinal - 1).emod 7).toNat ""

/-- `%b` month abbreviation (month 1..12). -/
def monthAbbrev (m : ℕ) : String :=
  (["Jan", "Feb", "Mar", "Apr", "May", "Jun",
    "Jul", "Aug", "Sep", "Oct", "Nov", "Dec"]).getD (m - 1) ""

/-- `day_date.strftime("%a, %b %d")` (line 326). -/
def dateLabel (ordinal : ℤ) : String :=
  let ymd := civilFromOrdinal ordinal
  weekdayAbbrev ordinal ++ ", " ++ monthAbbrev ymd.2.1 ++ " " ++ pad2 ymd.2.2

/-- `str(start_date)`: ISO `YYYY-MM-DD`. -/
def isoDate (ordinal : ℤ) : String :=
  let ymd := civilFromOrdinal ordinal
  pad4 ymd.1.toNat ++ "-" ++ pad2 ymd.2.1 ++ "-" ++ pad2 ymd.2.2

/-- A stop record: the dictionaries of `PLACE_LIBRARY` and the synthesized
must-visit / stay records all carry exactly these eight fields. -/
structure Place where
  name : String
  duration : String
  description : String
  activities : List String
  nearby : List String
  food : List String
  transport : String
  tips : String
deriving DecidableEq, Repr, Inhabited

/-- `PLACE_LIBRARY["Food"]` (lines 79–110). -/
def foodPlaces : List Place :=
  [{ name := "Local Breakfast Café", duration := "45–60 min",
     description := "Start with local flavors and a quick energy boost.",
     activities := ["Try a local pastry", "Signature coffee/tea", "Light breakfast"],
     nearby := ["Photo-friendly streets", "Small boutique shops"],
     food := ["Breakfast set", "Coffee + pastry"],
     transport := "Walking / short ride",
     tips := "Arrive early to avoid the morning rush." },
   { name := "Local Market / Food Street", duration := "1.5–2 hours",
     description := "Taste multiple local items in one walkable area.",
     activities := ["Street-food tasting", "Browse snacks", "Buy souvenirs"],
     nearby := ["Dessert shops", "Local craft lane"],
     food := ["Street snacks", "Regional specialty dish"],
     transport := "Walking / public transit",
     tips := "Carry cash for small vendors." },
   { name := "Signature Dinner Spot", duration := "1.5–2 hours",
     description := "End the day with a well-known local dinner option.",
     activities := ["Order the house special", "Try a local drink", "Dessert tasting"],
     nearby := ["Night walk area", "Rooftop views (if available)"],
     food := ["Main course", "Dessert"],
     transport := "Rideshare/Taxi or transit",
     tips := "Reserve in advance if it’s popular." }]

/-- `PLACE_LIBRARY["Nature"]` (lines 111–132). -/
def naturePlaces : List Place :=
  [{ name := "Main City Park / Scenic Viewpoint", duration := "1.5–2.5 hours",
     description := "Fresh air, views, and easy walking.",
     activities := ["Short walk", "Photography", "Relaxing break"],
     nearby := ["Visitor center", "Lake/river promenade"],
     food := ["Park-side café", "Quick bites nearby"],
     transport := "Walking / public transit",
     tips := "Morning light is best; carry water." },
   { name := "Botanical Garden / Nature Trail", duration := "2–3 hours",
     description := "A calm block that pairs well with a relaxed pace.",
     activities := ["Garden trail", "Photo stops", "Rest breaks"],
     nearby := ["Museum area", "Coffee shops"],
     food := ["Garden café", "Nearby brunch spot"],
     transport := "Public Transit or rideshare",
     tips := "Check entry timings; avoid midday heat if applicable." }]

/-- `PLACE_LIBRARY["History"]` (lines 133–154). -/
def historyPlaces : List Place :=
  [{ name := "Historic Old Town Walk", duration := "2–3 hours",
     description := "Heritage streets, architecture, and local culture.",
     activities := ["Walking tour", "Architecture photos", "Small museum visit"],
     nearby := ["Local market", "Historic monument"],
     food := ["Traditional lunch spot", "Bakery"],
     transport := "Walking",
     tips := "Wear comfortable shoes." },
   { name := "Main Museum / Cultural Center", duration := "2–3 hours",
     description := "Understand local history and context.",
     activities := ["Top exhibits", "Audio guide", "Gift shop quick stop"],
     nearby := ["City square", "Historic site"],
     food := ["Museum café", "Nearby restaurant strip"],
     transport := "Public Transit / rideshare",
     tips := "Go early for fewer crowds." }]

/-- `PLACE_LIBRARY["Shopping"]` (lines 155–166). -/
def shoppingPlaces : List Place :=
  [{ name := "Local Bazaar / Artisan Street", duration := "1.5–2.5 hours",
     description := "Shop unique crafts and local items.",
     activities := ["Browse crafts", "Compare prices", "Pick souvenirs"],
     nearby := ["Street-food lane", "Photo alleys"],
     food := ["Snacks nearby", "Dessert stall"],
     transport := "Walking / transit",
     tips := "Carry a tote bag; bargain politely." }]

/-- `PLACE_LIBRARY["Nightlife"]` (lines 167–178). -/
def nightlifePlaces : List Place :=
  [{ name := "Evening Walk + Night Market", duration := "1.5–2.5 hours",
     description := "Lights, snacks, and local vibe for the evening.",
     activities := ["Night photos", "Snack tasting", "People watching"],
     nearby := ["Dessert spots", "Live music area"],
     food := ["Night snacks", "Dessert"],
     transport := "Walking / rideshare",
     tips := "Check closing times and keep valuables secure." }]

/-- `PLACE_LIBRARY["Adventure"]` (lines 179–190). -/
def adventurePlaces : List Place :=
  [{ name := "Active Experience Block", duration := "2–3 hours",
     description := "A higher-energy activity for memorable moments.",
     activities := ["Guided activity", "Safety briefing", "Photos/videos"],
     nearby := ["Scenic stop", "Quick café"],
     food := ["Energy snack", "Post-activity meal"],
     transport := "Rideshare/Taxi / rental car",
     tips := "Confirm reservations; wear comfortable gear." }]

/-- `PLACE_LIBRARY["Relax"]` (lines 191–202). -/
def relaxPlaces : List Place :=
  [{ name := "Spa / Slow Café + Park Time", duration := "2–3 hours",
     description := "A slower block for recovery and calm vibes.",
     activities := ["Massage/spa (optional)", "Slow café time", "Park sit-down"],
     nearby := ["Bookstore", "Tea shop"],
     food := ["Light meal", "Tea/coffee"],
     transport := "Walking / short ride",
     tips := "Book spa slots ahead on weekends." }]

/-- `PLACE_LIBRARY.get(tag, [])`. -/
def libraryGet (tag : String) : List Place :=
  if tag = "Food" then foodPlaces
  else if tag = "Nature" then naturePlaces
  else if tag = "History" then historyPlaces
  else if tag = "Shopping" then shoppingPlaces
  else if tag = "Nightlife" then nightlifePlaces
  else if tag = "Adventure" then adventurePlaces
  else if tag = "Relax" then relaxPlaces
  else []

/-- Concatenation of a list of lists, in order. -/
def concatAll : List (List Place) → List Place
  | [] => []
  | x :: xs => x ++ concatAll xs

/-- `PLACE_LIBRARY.values()` flattened, in the dict's insertion order. -/
def allPlaces : List Place :=
  concatAll [foodPlaces, naturePlaces, historyPlaces, shoppingPlaces,
             nightlifePlaces, adventurePlaces, relaxPlaces]

/-- `{a.strip().lower() for a in avoid if a.strip()}` (line 307): a list whose
membership is the set's. -/
def avoidLowerOf (avoid : List String) : List String :=
  (avoid.filter (fun a => pyStripS a ≠ "")).map (fun a => pyLowerS (pyStripS a))

/-- One selection pass of `pick_places` (lines 216–224 and 230–238): walk the
pool in order, skip a candidate whose name is used or whose lowercased name is
avoided, accept until `n` are collected; returns the picks and the grown
used-name set. -/
def pickFrom : List Place → ℕ → List String → List String → List Place × List String
  | [], _, used, _ => ([], used)
  | _ :: _, 0, used, _ => ([], used)
  | p :: rest, n + 1, used, avoid =>
    if p.name ∈ used then pickFrom rest (n + 1) used avoid
    else if pyLowerS p.name ∈ avoid then pickFrom rest (n + 1) used avoid
    else
      let r := pickFrom rest n (p.name :: used) avoid
      (p :: r.1, r.2)

/-- The candidate pool of `pick_places` (lines 208–214): the catalog lists of
the selected interests concatenated in selection order; every catalog list
when that pool is empty. -/
def selectionPool (interests : List String) : List Place :=
  if (concatAll (interests.map libraryGet)).isEmpty then allPlaces
  else concatAll (interests.map libraryGet)

/-- `pick_places` (lines 206–240): one pass over the pool, then a top-up pass
over the whole catalog when fewer than `num_stops` were found. -/
def pick_places (interests : List String) (num_stops : ℕ)
    (used_names : List String) (avoid_lower : List String) :
    List Place × List String :=
  let r1 := pickFrom (selectionPool interests) num_stops used_names avoid_lower
  if r1.1.length < num_stops then
    let r2 := pickFrom allPlaces (num_stops - r1.1.length) r1.2 avoid_lower
    (r1.1 ++ r2.1, r2.2)
  else r1

/-- The record synthesized for a must-visit entry (lines 340–349). -/
def mkMustPlace (mv transport : String) : Place :=
  { name := mv, duration := "2 hours",
    description := "User-selected must-visit place.",
    activities := ["Explore key highlights", "Photos", "Spend time based on your interest"],
    nearby := ["Look for nearby cafés", "Walkable spots around"],
    food := ["Nearby local option"],
    transport := transport,
    tips := "Check opening hours and tickets; adjust time based on crowd." }

/-- The must-visit `while` loop of one day (lines 333–350) on the queue's
remainder: synthesize up to `q` records, skipping (but consuming) entries whose
lowercased name is avoided; returns the records, the number of queue entries
consumed and the grown used-name set. -/
def takeMust : List String → ℕ → String → List String → List String →
    List Place × ℕ × List String
  | [], _, _, _, used => ([], 0, used)
  | _ :: _, 0, _, _, used => ([], 0, used)
  | mv :: rest, q + 1, transport, avoid, used =>
    if pyLowerS mv ∈ avoid then
      let r := takeMust rest (q + 1) transport avoid used
      (r.1, r.2.1 + 1, r.2.2)
    else
      let r := takeMust rest q transport avoid (mv :: used)
      (mkMustPlace mv transport :: r.1, r.2.1 + 1, r.2.2)

/-- A timeline slot; the source stores the two clock times already formatted,
here they are kept as minutes from the day's midnight and formatted at export
(`fmt_hhmm` is applied in `toExport` exactly where lines 365–366 and 390–391
apply it). -/
structure Slot where
  startMin : ℕ
  endMin : ℕ
  place : Place
  travelNext : ℕ
deriving DecidableEq, Repr, Inhabited

/-- One day of the itinerary (lines 398–402). -/
structure Day where
  day : ℕ
  date : String
  timeline : List Slot
deriving DecidableEq, Repr, Inhabited

/-- The summary dict (lines 404–419). -/
structure Summary where
  city : String
  startDateS : String
  endDateS : String
  daysN : ℕ
  budget : String
  pace : String
  interests : List String
  transport : String
  stayArea : String
  stayType : String
  mustVisit : List String
  avoid : List String
  foodPref : List String
  notes : String
deriving DecidableEq, Repr, Inhabited

/-- The value `build_detailed_itinerary` returns (line 421). -/
structure Itinerary where
  summary : Summary
  days : List Day
deriving DecidableEq, Repr, Inhabited

/-- The validated request the caller hands to the assembler: the fifteen
parameters of `build_detailed_itinerary` (lines 289–304); dates are Python
`date.toordinal()` values, clock times are minutes after midnight. -/
structure Request where
  city : String
  startDate : ℤ
  endDate : ℤ
  startTime : ℕ
  dayEndTime : ℕ
  budget : String
  pace : String
  interests : List String
  transport : String
  notes : String
  stayArea : String
  stayType : String
  mustVisit : List String
  avoid : List String
  foodPref : List String
deriving DecidableEq, Repr, Inhabited

/-- The synthetic stay-location record (lines 367–376). -/
def stayPlace (r : Request) : Place :=
  { name := "Start from your stay: " ++ r.stayArea ++ " (" ++ r.stayType ++ ")",
    duration := "10 min",
    description := "Starting point based on your accommodation.",
    activities := ["Quick prep", "Grab essentials", "Head out"],
    nearby := [], food := [],
    transport := r.transport,
    tips := "Carry water, power bank, and ID." }

/-- The timeline loop over the day's places (lines 381–396): each stop gets
its parsed duration; a stop whose candidate end time passes the day's end
stops the loop (it and every later stop are dropped); the travel-to-next field
is the gap except for the slot built from the last place of the list. -/
def buildSlots (places : List Place) (cursor dayEnd gap : ℕ) : List Slot :=
  match places with
  | [] => []
  | p :: rest =>
    let dur := (parse_duration_to_minutes p.duration).toNat
    let endT := cursor + dur
    if dayEnd < endT then []
    else
      { startMin := cursor, endMin := endT, place := p,
        travelNext := if rest.isEmpty then 0 else gap } ::
        buildSlots rest (endT + gap) dayEnd gap

/-- The day's stop list (lines 331–355): must-visit records first, catalog
picks for the remainder; returns the places, the grown used-name set and the
number of must-visit queue entries consumed. -/
def dayPlaces (r : Request) (used : List String) (mustIdx : ℕ) :
    List Place × List String × ℕ :=
  let quota := stopsPerDay r.pace
  let avoid := avoidLowerOf r.avoid
  let tm := takeMust (r.mustVisit.drop mustIdx) quota r.transport avoid used
  let pk :=
    if tm.1.length < quota then
      pick_places r.interests (quota - tm.1.length) tm.2.2 avoid
    else ([], tm.2.2)
  (tm.1 ++ pk.1, pk.2, tm.2.1)

/-- The synthetic 10-minute stay slot, emitted first exactly when a stay area
is configured (lines 362–378); its travel-to-next is the fixed gap. -/
def dayStayPart (r : Request) : List Slot :=
  if pyStripS r.stayArea ≠ "" then
    [{ startMin := r.startTime, endMin := r.startTime + 10,
       place := stayPlace r, travelNext := travel_time_minutes r.transport }]
  else []

/-- Where the cursor stands when the stop loop begins (lines 359, 379). -/
def dayCursorInit (r : Request) : ℕ :=
  if pyStripS r.stayArea ≠ "" then
    r.startTime + 10 + travel_time_minutes r.transport
  else r.startTime

/-- A day's timeline (lines 357–396): optional stay slot, then the stop loop
within the daily bounds. -/
def dayTimeline (r : Request) (places : List Place) : List Slot :=
  dayStayPart r ++
    buildSlots places (dayCursorInit r) r.dayEndTime (travel_time_minutes r.transport)

/-- One iteration of the day loop (lines 324–402).  Returns the day together
with the grown used-name set and the new must-visit cursor. -/
def buildOneDay (r : Request) (i : ℕ) (used : List String) (mustIdx : ℕ) :
    Day × List String × ℕ :=
  let dp := dayPlaces r used mustIdx
  (⟨i + 1, dateLabel (r.startDate + i), dayTimeline r dp.1⟩, dp.2.1, mustIdx + dp.2.2)

/-- The `for i in range(days)` loop, by remaining fuel. -/
def buildDaysAux (r : Request) : ℕ → ℕ → List String → ℕ → List Day
  | 0, _, _, _ => []
  | fuel + 1, i, used, mustIdx =>
    let d := buildOneDay r i used mustIdx
    d.1 :: buildDaysAux r fuel (i + 1) d.2.1 d.2.2

/-- `days = max(1, (end_date - start_date).days + 1)` (line 306): `toNat`
clamps every nonpositive difference to `0`, which the guard lifts to `1`. -/
def tripDays (r : Request) : ℕ :=
  let d := (r.endDate - r.startDate + 1).toNat
  if d = 0 then 1 else d

/-- The summary dict (lines 404–419): normalized echo of the request. -/
def buildSummary (r : Request) : Summary :=
  { city := r.city
    startDateS := isoDate r.startDate
    endDateS := isoDate r.endDate
    daysN := tripDays r
    budget := r.budget
    pace := r.pace
    interests := if r.interests.isEmpty then ["Any"] else r.interests
    transport := r.transport
    stayArea := if r.stayArea = "" then "—" else r.stayArea
    stayType := r.stayType
    mustVisit := if r.mustVisit.isEmpty then ["—"] else r.mustVisit
    avoid := if r.avoid.isEmpty then ["—"] else r.avoid
    foodPref := if r.foodPref.isEmpty then ["—"] else r.foodPref
    notes := if r.notes = "" then "—" else r.notes }

/-- `build_detailed_itinerary` (lines 289–421). -/
def build_detailed_itinerary (r : Request) : Itinerary :=
  { summary := buildSummary r
    days := buildDaysAux r (tripDays r) 0 [] 0 }

/-- Name of the place a slot references. -/
def slotName (s : Slot) : String := s.place.name

/-- All place names of a day's timeline, in order. -/
def dayNames (d : Day) : List String := d.timeline.map slotName

/-- All place names of the whole itinerary, day by day. -/
def allNames (it : Itinerary) : List String :=
  (it.days.map dayNames).foldr (· ++ ·) []

/-- A timeline slot as the source's dict stores and exports it: clock times
already formatted by `fmt_hhmm`. -/
structure SlotExport where
  startS : String
  endS : String
  place : Place
  travel : ℕ
deriving DecidableEq, Repr, Inhabited

/-- A day as exported. -/
structure DayExport where
  day : ℕ
  date : String
  timeline : List SlotExport
deriving DecidableEq, Repr, Inhabited

/-- The whole returned value as exported (the shape of line 602's
`json.dumps`). -/
structure ItinExport where
  summary : Summary
  days : List DayExport
deriving DecidableEq, Repr, Inhabited

/-- Formatting a slot's times, as lines 365–366 and 390–391 do on append. -/
def toExportSlot (s : Slot) : SlotExport :=
  ⟨fmt_hhmm s.startMin, fmt_hhmm s.endMin, s.place, s.travelNext⟩

/-- The itinerary in its stored/export form. -/
def toExport (it : Itinerary) : ItinExport :=
  ⟨it.summary, it.days.map fun d => ⟨d.day, d.date, d.timeline.map toExportSlot⟩⟩

/-- `generate_plan_explanation` (lines 243–286): one prose string built only
from the slot's own fields plus day number, city, transport and pace. -/
def generate_plan_explanation (day_num : ℕ) (city : String) (slot : SlotExport)
    (transport pace : String) : String :=
  let p := slot.place
  let parts1 := ["**" ++ slot.startS ++ "–" ++ slot.endS ++ " | " ++ p.name ++
    "** — planned for about **" ++ p.duration ++ "** in **" ++ city ++
    "** (Day " ++ toString day_num ++ ")."]
  let parts2 := parts1 ++
    (if p.activities.isEmpty then [] else
      ["Main focus: " ++ safe_list_join p.activities ++ "."])
  let parts3 := parts2 ++
    (if p.nearby.isEmpty then [] else
      ["Nearby options to pair: " ++ safe_list_join p.nearby ++ "."])
  let parts4 := parts3 ++
    (if p.food.isEmpty then [] else
      ["Food around this stop: " ++ safe_list_join p.food ++ "."])
  let parts5 := parts4 ++
    [if pace = "Packed" then
      "Because your pace is **Packed**, this stop is kept efficient to fit more in the day."
     else if pace = "Relaxed" then
      "Because your pace is **Relaxed**, you have buffer time here for breaks and a slower walkthrough."
     else
      "With a **Balanced** pace, this block keeps the day structured but flexible."]
  let parts6 := parts5 ++ ["Transport: **" ++ transport ++ "**."]
  let parts7 := parts6 ++
    (if 0 < slot.travel then
      ["Next travel estimate: ~**" ++ toString slot.travel ++ " min**."] else [])
  let parts8 := parts7 ++ (if p.tips = "" then [] else ["Tip: " ++ p.tips])
  String.intercalate " " parts8

/-- `ai_rewrite_day_narrative` (lines 427–474).  The environment credential and
the external call are explicit inputs: `callResult` is `Except.error` for every
failure the `try/except` swallows (import failure, network error, malformed
response — including a `None` content, whose `.strip()` raises and is caught),
and `Except.ok content` for a successful response.  The function never
propagates a failure: it returns `none` instead. -/
def ai_rewrite_day_narrative (apiKeyEnv : String)
    (callResult : Except Unit String) : Option String :=
  if pyStripS apiKeyEnv = "" then none
  else
    match callResult with
    | Except.error _ => none
    | Except.ok content => some (pyStripS content)

/-- The passive notice of line 623. -/
def aiUnavailableNotice : String :=
  "AI rewrite is ON, but OPENAI_API_KEY is missing or request failed. Showing plan-based explanations below."

/-- The locally generated per-stop explanations of a day (the loop of lines
626–642 restricted to its explanation output). -/
def localExplanations (day : DayExport) (summary : Summary) : List String :=
  day.timeline.map fun slot =>
    generate_plan_explanation day.day summary.city slot summary.transport summary.pace

/-- The narrative section of the render path (lines 616–642): with the AI
toggle on, a successful rewrite is shown above the explanations; on `None` the
passive notice is shown instead, and the locally generated per-stop
explanations are rendered either way. -/
def renderDayTexts (useAI : Bool) (rewritten : Option String)
    (day : DayExport) (summary : Summary) : List String :=
  (if useAI then
    match rewritten with
    | some t => [t]
    | none => [aiUnavailableNotice]
   else []) ++ localExplanations day summary

/-- The JSON documents `json.dumps` (line 602) produces: the repository's
export format only needs strings, integers, arrays and string-keyed objects. -/
inductive Json where
  | str (s : String)
  | num (n : ℤ)
  | arr (xs : List Json)
  | obj (fields : List (String × Json))
deriving Repr

/-- A list of strings as a JSON array. -/
def encodeStrList (l : List String) : Json := Json.arr (l.map Json.str)

/-- A place dict (the key order of lines 80–89 et al.). -/
def encodePlace (p : Place) : Json :=
  Json.obj [("name", Json.str p.name), ("duration", Json.str p.duration),
    ("description", Json.str p.description),
    ("activities", encodeStrList p.activities),
    ("nearby", encodeStrList p.nearby), ("food", encodeStrList p.food),
    ("transport", Json.str p.transport), ("tips", Json.str p.tips)]

/-- A timeline slot dict (lines 364–378 / 389–394). -/
def encodeSlot (s : SlotExport) : Json :=
  Json.obj [("start", Json.str s.startS), ("end", Json.str s.endS),
    ("place", encodePlace s.place),
    ("estimated_travel_to_next_min", Json.num s.travel)]

/-- A day dict (lines 398–402). -/
def encodeDay (d : DayExport) : Json :=
  Json.obj [("day", Json.num d.day), ("date", Json.str d.date),
    ("timeline", Json.arr (d.timeline.map encodeSlot))]

/-- The summary dict (lines 404–419). -/
def encodeSummary (s : Summary) : Json :=
  Json.obj [("City", Json.str s.city), ("Start Date", Json.str s.startDateS),
    ("End Date", Json.str s.endDateS), ("Days", Json.num s.daysN),
    ("Budget", Json.str s.budget), ("Pace", Json.str s.pace),
    ("Interests", encodeStrList s.interests),
    ("Transport", Json.str s.transport), ("Stay Area", Json.str s.stayArea),
    ("Stay Type", Json.str s.stayType),
    ("Must-visit", encodeStrList s.mustVisit),
    ("Avoid", encodeStrList s.avoid),
    ("Food Preference", encodeStrList s.foodPref),
    ("Notes", Json.str s.notes)]

/-- The export document `{"summary": ..., "days": [...]}` of line 602. -/
def encodeItin (e : ItinExport) : Json :=
  Json.obj [("summary", encodeSummary e.summary),
    ("days", Json.arr (e.days.map encodeDay))]

/-- Modelled from the spec: the repository exports the itinerary JSON (line
602) but contains no importer; §6 of the spec requires the shape to
"round-trip losslessly through serialize→deserialize", so this is the
spec-mandated inverse, reading back exactly the documents `encodeItin`
writes.  Decode a JSON string. -/
def decodeStr : Json → Option String
  | Json.str s => some s
  | _ => none

/-- Modelled from the spec: inverse of `encodeStrList` (see `decodeStr`). -/
def decodeStrList : Json → Option (List String)
  | Json.arr xs => go xs
  | _ => none
where
  go : List Json → Option (List String)
    | [] => some []
    | Json.str s :: rest => (go rest).map (s :: ·)
    | _ => none

/-- Modelled from the spec: inverse of `encodePlace` (see `decodeStr`). -/
def decodePlace : Json → Option Place
  | Json.obj [("name", Json.str n), ("duration", Json.str du),
      ("description", Json.str de), ("activities", a), ("nearby", nb),
      ("food", f), ("transport", Json.str tr), ("tips", Json.str ti)] =>
    match decodeStrList a, decodeStrList nb, decodeStrList f with
    | some a', some nb', some f' => some ⟨n, du, de, a', nb', f', tr, ti⟩
    | _, _, _ => none
  | _ => none

/-- Modelled from the spec: inverse of `encodeSlot` (see `decodeStr`). -/
def decodeSlot : Json → Option SlotExport
  | Json.obj [("start", Json.str st), ("end", Json.str en), ("place", p),
      ("estimated_travel_to_next_min", Json.num tr)] =>
    match decodePlace p with
    | some p' => if 0 ≤ tr then some ⟨st, en, p', tr.toNat⟩ else none
    | none => none
  | _ => none

/-- Modelled from the spec: decode each slot of a timeline (see `decodeStr`). -/
def decodeSlots : List Json → Option (List SlotExport)
  | [] => some []
  | j :: rest =>
    match decodeSlot j with
    | some s => (decodeSlots rest).map (s :: ·)
    | none => none

/-- Modelled from the spec: inverse of `encodeDay` (see `decodeStr`). -/
def decodeDay : Json → Option DayExport
  | Json.obj [("day", Json.num dn), ("date", Json.str da),
      ("timeline", Json.arr tl)] =>
    match decodeSlots tl with
    | some tl' => if 0 ≤ dn then some ⟨dn.toNat, da, tl'⟩ else none
    | none => none
  | _ => none

/-- Modelled from the spec: decode each day (see `decodeStr`). -/
def decodeDays : List Json → Option (List DayExport)
  | [] => some []
  | j :: rest =>
    match decodeDay j with
    | some d => (decodeDays rest).map (d :: ·)
    | none => none

/-- Modelled from the spec: a nonnegative integer field (see `decodeStr`). -/
def decodeNat : Json → Option ℕ
  | Json.num n => if 0 ≤ n then some n.toNat else none
  | _ => none

/-- Modelled from the spec: inverse of `encodeSummary` (see `decodeStr`). -/
def decodeSummary : Json → Option Summary
  | Json.obj [(k1, v1), (k2, v2), (k3, v3), (k4, v4), (k5, v5), (k6, v6),
      (k7, v7), (k8, v8), (k9, v9), (k10, v10), (k11, v11), (k12, v12),
      (k13, v13), (k14, v14)] =>
    if k1 = "City" ∧ k2 = "Start Date" ∧ k3 = "End Date" ∧ k4 = "Days" ∧
        k5 = "Budget" ∧ k6 = "Pace" ∧ k7 = "Interests" ∧ k8 = "Transport" ∧
        k9 = "Stay Area" ∧ k10 = "Stay Type" ∧ k11 = "Must-visit" ∧
        k12 = "Avoid" ∧ k13 = "Food Preference" ∧ k14 = "Notes" then do
      let c ← decodeStr v1
      let sd ← decodeStr v2
      let ed ← decodeStr v3
      let dn ← decodeNat v4
      let b ← decodeStr v5
      let pa ← decodeStr v6
      let i ← decodeStrList v7
      let tr ← decodeStr v8
      let sa ← decodeStr v9
      let sty ← decodeStr v10
      let mv ← decodeStrList v11
      let av ← decodeStrList v12
      let fp ← decodeStrList v13
      let no ← decodeStr v14
      pure ⟨c, sd, ed, dn, b, pa, i, tr, sa, sty, mv, av, fp, no⟩
    else none
  | _ => none

/-- Modelled from the spec: inverse of `encodeItin` (see `decodeStr`). -/
def decodeItin : Json → Option ItinExport
  | Json.obj [("summary", s), ("days", Json.arr ds)] =>
    match decodeSummary s, decodeDays ds with
    | some s', some ds' => some ⟨s', ds'⟩
    | _, _ => none
  | _ => none

/-- How many synthetic stay slots open each day: one when a stay area is
configured, none otherwise. -/
def stayLen (r : Request) : ℕ := if pyStripS r.stayArea = "" then 0 else 1

/-- The place names of a day's timeline with the synthetic stay-location slot
(present exactly when a stay area is configured, always first) removed. -/
def nonStayNames (r : Request) (it : Itinerary) : List String :=
  (it.days.map fun d => (d.timeline.drop (stayLen r)).map slotName).foldr
    (· ++ ·) []

/-- A concrete request: the worked example of the spec (pace Packed, transport
Walking, one day, interests Food, nothing else configured); 739404 is the
ordinal of 2025-06-02. -/
def reqBase : Request :=
  { city := "Denver", startDate := 739404, endDate := 739404,
    startTime := 540, dayEndTime := 1200,
    budget := "Medium", pace := "Packed", interests := ["Food"],
    transport := "Walking", notes := "", stayArea := "", stayType := "Hotel",
    mustVisit := [], avoid := [], foodPref := [] }

/-- Two days with a configured stay area: the stay pseudo-stop recurs. -/
def reqStayTwoDays : Request :=
  { reqBase with endDate := 739405, stayArea := "Downtown" }

/-- A stay area with the day's end time equal to its start time: the stay slot
alone already passes the bound. -/
def reqStayTight : Request :=
  { reqBase with dayEndTime := 540, stayArea := "Downtown" }

/-- A day ending at 10:00: only the first Food stop fits, the rest are
dropped, so the day's final emitted slot still carries the travel gap. -/
def reqDropLate : Request :=
  { reqBase with dayEndTime := 600 }

/-- The spec's must-visit/avoid example: the single must-visit entry is also
on the avoid list. -/
def reqRedRocks : Request :=
  { reqBase with mustVisit := ["Red Rocks"], avoid := ["red rocks"] }

/-! ## The duration parser -/

theorem pyRoundFrac_eq_pyRound (p q : ℕ) (hq : 0 < q) :
    (pyRoundFrac p q : ℤ) = pyRound ((p : ℚ) / (q : ℚ)) := by
  have hq0 : (0 : ℚ) < (q : ℚ) := by exact_mod_cast hq
  have hdm := Nat.div_add_mod p q
  have hfloor : ⌊(p : ℚ) / (q : ℚ)⌋ = ((p / q : ℕ) : ℤ) := by
    rw [Int.floor_eq_iff]
    constructor
    · rw [le_div_iff₀ hq0]
      push_cast
      exact_mod_cast Nat.div_mul_le_self p q
    · rw [div_lt_iff₀ hq0]
      have key : p < (p / q + 1) * q := by
        calc p = q * (p / q) + p % q := hdm.symm
        _ < q * (p / q) + q := Nat.add_lt_add_left (Nat.mod_lt p hq) _
        _ = (p / q + 1) * q := by ring
      push_cast
      exact_mod_cast key
  have hdmQ : (q : ℚ) * ((p / q : ℕ) : ℚ) + ((p % q : ℕ) : ℚ) = (p : ℚ) := by
    exact_mod_cast hdm
  have hfrac : (p : ℚ) / q - ((p / q : ℕ) : ℚ) = ((p % q : ℕ) : ℚ) / q := by
    field_simp
    linarith [hdmQ]
  have hlt : (((p % q : ℕ) : ℚ) / q < 1 / 2) ↔ (2 * (p % q) < q) := by
    rw [div_lt_div_iff₀ hq0 (by norm_num : (0:ℚ) < 2)]
    norm_cast
    omega
  have hgt : ((1 : ℚ) / 2 < ((p % q : ℕ) : ℚ) / q) ↔ (q < 2 * (p % q)) := by
    rw [div_lt_div_iff₀ (by norm_num : (0:ℚ) < 2) hq0]
    norm_cast
    omega
  have hdvd : ((2 : ℤ) ∣ ((p / q : ℕ) : ℤ)) ↔ (p / q % 2 = 0) := by
    constructor
    · intro h
      have : 2 ∣ p / q := by exact_mod_cast h
      omega
    · intro h
      have : 2 ∣ p / q := by omega
      exact_mod_cast this
  unfold pyRound pyRoundFrac
  rw [hfloor]
  simp only [Int.cast_natCast]
  rw [hfrac]
  simp only [hlt, hgt, hdvd, Nat.dvd_iff_mod_eq_zero]
  split_ifs <;> push_cast <;> ring

theorem parse_range_val (a b : NumTok) :
    (pyRoundFrac (30 * (a.num * 10 ^ b.exp + b.num * 10 ^ a.exp))
        (10 ^ (a.exp + b.exp)) : ℤ) = pyRound (30 * (tokVal a + tokVal b)) := by
  rw [pyRoundFrac_eq_pyRound _ _ (pow_pos (by norm_num) _)]
  congr 1
  unfold tokVal
  have h1 : ((10 : ℚ) ^ a.exp) ≠ 0 := by positivity
  have h2 : ((10 : ℚ) ^ b.exp) ≠ 0 := by positivity
  push_cast
  rw [pow_add, div_add_div _ _ h1 h2, ← mul_div_assoc]
  ring_nf

theorem parse_hour_val (h : NumTok) :
    (pyRoundFrac (60 * h.num) (10 ^ h.exp) : ℤ) = pyRound (60 * tokVal h) := by
  rw [pyRoundFrac_eq_pyRound _ _ (pow_pos (by norm_num) _)]
  congr 1
  unfold tokVal
  push_cast
  rw [mul_div_assoc]

/-- Branch structure of the embedded parser: a matched hour range yields
round-half-even of `30 × (a + b)` over the exact decimal values, a matched
single hour `round(60 × n)`, a matched minute count the integer itself, and
otherwise 90.  This characterises the embedding only: the source computes the
hour branches in binary64 floats, which agrees with the exact values on the
short decimal numerals of the repository's data but not on arbitrary text. -/
theorem parse_priority_structure (s : String) :
    (∀ a b, searchHourRange (normDuration s) = some (a, b) →
      parse_duration_to_minutes s = pyRound (30 * (tokVal a + tokVal b))) ∧
    (searchHourRange (normDuration s) = none →
      (∀ h, searchHourSingle (normDuration s) = some h →
        parse_duration_to_minutes s = pyRound (60 * tokVal h)) ∧
      (searchHourSingle (normDuration s) = none →
        (∀ n, searchMinutes (normDuration s) = some n →
          parse_duration_to_minutes s = (n : ℤ)) ∧
        (searchMinutes (normDuration s) = none →
          parse_duration_to_minutes s = 90))) := by
  refine ⟨?_, fun h0 => ⟨?_, fun h1 => ⟨?_, fun h2 => ?_⟩⟩⟩
  · intro a b h
    unfold parse_duration_to_minutes
    rw [h]
    exact parse_range_val a b
  · intro h hh
    unfold parse_duration_to_minutes
    rw [h0, hh]
    exact parse_hour_val h
  · intro n hn
    unfold parse_duration_to_minutes
    rw [h0, h1, hn]
  · unfold parse_duration_to_minutes
    rw [h0, h1, h2]

/-- The minutes branch of the source is exact integer arithmetic
(`int(m.group(1))`, no floats), and it accepts `"0 min"`, returning 0 —
so the parsed minute count is not always positive. -/
theorem parse_zero_min :
    parse_duration_to_minutes "0 min" = 0 ∧
      ¬ (0 < parse_duration_to_minutes "0 min") := by decide

/-- Every value of the embedded parser is nonnegative (the source's hour
branches round nonnegative floats, its minute branch is a nonnegative
integer, and the fallback is 90; the source can instead raise on hour
numerals past the float range, a path outside this embedding). -/
theorem parse_nonneg (s : String) : 0 ≤ parse_duration_to_minutes s := by
  unfold parse_duration_to_minutes
  split
  · exact Int.natCast_nonneg _
  · split
    · exact Int.natCast_nonneg _
    · split
      · exact Int.natCast_nonneg _
      · norm_num

/-- Claim C1, counterexample: the catalog text `"45–60 min"` does not parse
to 53 minutes — the range pattern of the code requires an hour unit, so the
minutes pattern applies to the second number and the parse is 60. -/
theorem claimC1_counterexample :
    parse_duration_to_minutes "45–60 min" = 60 ∧
      parse_duration_to_minutes "45–60 min" ≠ 53 := by decide

/-! ## Timeline construction -/

theorem buildSlots_cons (p : Place) (rest : List Place) (c e g : ℕ)
    (h : ¬ e < c + (parse_duration_to_minutes p.duration).toNat) :
    buildSlots (p :: rest) c e g =
      { startMin := c, endMin := c + (parse_duration_to_minutes p.duration).toNat,
        place := p, travelNext := if rest.isEmpty then 0 else g } ::
      buildSlots rest (c + (parse_duration_to_minutes p.duration).toNat + g) e g := by
  simp [buildSlots, h]

/-- Claim C1 (amended): for the request of the worked example — pace
`"Packed"`, transport `"Walking"`, a single day, no must-visit or avoid
entries, interests `["Food"]`, no stay area — the day stop quota is 4, the
travel gap 15 minutes, and the first Food-catalog stop `"Local Breakfast
Café"` (duration text `"45–60 min"`, parsed to **60** minutes, not 53)
occupies the first timeline slot, starting exactly at the day's configured
start time (provided that first stop fits before the day's end). -/
theorem claimC1_amended (city budget notes stayType : String) (sd : ℤ)
    (st et : ℕ) (fp : List String) (hfit : st + 60 ≤ et) :
    stopsPerDay "Packed" = 4 ∧ travel_time_minutes "Walking" = 15 ∧
    parse_duration_to_minutes "45–60 min" = 60 ∧
    ∃ lbl rest s0,
      (build_detailed_itinerary
        ⟨city, sd, sd, st, et, budget, "Packed", ["Food"], "Walking",
          notes, "", stayType, [], [], fp⟩).days = [⟨1, lbl, s0 :: rest⟩] ∧
      s0.startMin = st ∧ s0.endMin = st + 60 ∧
      slotName s0 = "Local Breakfast Café" ∧ s0.travelNext = 15 := by
  refine ⟨rfl, rfl, by decide, ?_⟩
  have hdur : (parse_duration_to_minutes (foodPlaces.headI).duration).toNat = 60 := by
    decide
  refine ⟨dateLabel (sd + ((0 : ℕ) : ℤ)),
    buildSlots (foodPlaces.tail ++ naturePlaces.take 1) (st + 60 + 15) et 15,
    ⟨st, st + 60, foodPlaces.headI, 15⟩, ?_, rfl, rfl, rfl, rfl⟩
  have h1 : tripDays
      ⟨city, sd, sd, st, et, budget, "Packed", ["Food"], "Walking",
        notes, "", stayType, [], [], fp⟩ = 1 := by
    simp [tripDays]
  show buildDaysAux _ (tripDays _) 0 [] 0 = _
  rw [h1]
  have hday : buildDaysAux
      ⟨city, sd, sd, st, et, budget, "Packed", ["Food"], "Walking",
        notes, "", stayType, [], [], fp⟩ 1 0 [] 0 =
      [⟨1, dateLabel (sd + ((0 : ℕ) : ℤ)),
        buildSlots (foodPlaces.headI :: (foodPlaces.tail ++ naturePlaces.take 1))
          st et 15⟩] := rfl
  rw [hday, buildSlots_cons _ _ _ _ _ (by rw [hdur]; omega), hdur]
  have hne : (foodPlaces.tail ++ List.take 1 naturePlaces).isEmpty = false := by decide
  simp [hne]

/-- Claim C2, counterexample: with a configured stay area and two days, the
synthetic stay-location pseudo-stop's name appears in both days' timelines, so
a stop name is used twice within a single generation run. -/
theorem claimC2_counterexample :
    ¬ (allNames (build_detailed_itinerary reqStayTwoDays)).Nodup := by decide

/-- Claim C3, counterexample: with a stay area configured and the day's end
time equal to its start time, the synthetic stay slot is emitted with an end
time 10 minutes past the configured end-of-day bound. -/
theorem claimC3_counterexample :
    ¬ (∀ d ∈ (build_detailed_itinerary reqStayTight).days,
        ∀ s ∈ d.timeline, s.endMin ≤ reqStayTight.dayEndTime) := by decide

/-- Claim C4, counterexample: when trailing stops are dropped for overflow,
the day's last emitted slot still carries the travel gap (15) instead of the
zero the claim requires for the last slot of a day. -/
theorem claimC4_counterexample :
    ((build_detailed_itinerary reqDropLate).days.map fun d =>
        d.timeline.map Slot.travelNext) = [[15]] ∧ (15 : ℕ) ≠ 0 := by decide

theorem buildSlots_bound (places : List Place) (c e g : ℕ) :
    ∀ s ∈ buildSlots places c e g,
      s.endMin ≤ e ∧
      s.endMin = s.startMin + (parse_duration_to_minutes s.place.duration).toNat := by
  induction places generalizing c with
  | nil => simp [buildSlots]
  | cons p rest ih =>
    intro s hs
    by_cases hb : e < c + (parse_duration_to_minutes p.duration).toNat
    · simp [buildSlots, hb] at hs
    · rw [buildSlots_cons _ _ _ _ _ hb] at hs
      rcases List.mem_cons.mp hs with rfl | hs
      · exact ⟨by dsimp only; omega, rfl⟩
      · exact ih _ s hs

theorem buildSlots_head_start (places : List Place) (c e g : ℕ) :
    ∀ s, (buildSlots places c e g).head? = some s → s.startMin = c := by
  intro s hs
  cases places with
  | nil => simp [buildSlots] at hs
  | cons p rest =>
    by_cases hb : e < c + (parse_duration_to_minutes p.duration).toNat
    · simp [buildSlots, hb] at hs
    · rw [buildSlots_cons _ _ _ _ _ hb] at hs
      simp at hs
      rw [← hs]

theorem buildSlots_ne_nil (places : List Place) (c e g : ℕ)
    (h : buildSlots places c e g ≠ []) : places ≠ [] := by
  intro hp
  subst hp
  simp [buildSlots] at h

theorem buildSlots_chain (places : List Place) (c e g : ℕ) :
    List.Chain' (fun a b => a.endMin + g = b.startMin ∧ a.travelNext = g)
      (buildSlots places c e g) := by
  induction places generalizing c with
  | nil => simp [buildSlots]
  | cons p rest ih =>
    by_cases hb : e < c + (parse_duration_to_minutes p.duration).toNat
    · simp [buildSlots, hb]
    · rw [buildSlots_cons _ _ _ _ _ hb]
      refine List.chain'_cons'.mpr
        ⟨?_, ih (c + (parse_duration_to_minutes p.duration).toNat + g)⟩
      intro y hy
      have hst := buildSlots_head_start rest
        (c + (parse_duration_to_minutes p.duration).toNat + g) e g y
        (Option.mem_def.mp hy)
      have hne : rest ≠ [] := by
        refine buildSlots_ne_nil rest
          (c + (parse_duration_to_minutes p.duration).toNat + g) e g ?_
        intro hnil
        rw [hnil] at hy
        simp at hy
      constructor
      · rw [hst]
      · simp [List.isEmpty_iff, hne]

theorem buildSlots_travel (places : List Place) (c e g : ℕ) :
    ∀ s ∈ buildSlots places c e g, s.travelNext = 0 ∨ s.travelNext = g := by
  induction places generalizing c with
  | nil => simp [buildSlots]
  | cons p rest ih =>
    intro s hs
    by_cases hb : e < c + (parse_duration_to_minutes p.duration).toNat
    · simp [buildSlots, hb] at hs
    · rw [buildSlots_cons _ _ _ _ _ hb] at hs
      rcases List.mem_cons.mp hs with rfl | hs
      · dsimp only
        split_ifs <;> simp
      · exact ih _ s hs

theorem buildSlots_last_complete (places : List Place) (c e g : ℕ)
    (hlen : (buildSlots places c e g).length = places.length)
    (hne : places ≠ []) :
    ∃ s, (buildSlots places c e g).getLast? = some s ∧ s.travelNext = 0 := by
  induction places generalizing c with
  | nil => exact absurd rfl hne
  | cons p rest ih =>
    by_cases hb : e < c + (parse_duration_to_minutes p.duration).toNat
    · rw [show buildSlots (p :: rest) c e g = [] by simp [buildSlots, hb]] at hlen
      simp at hlen
    · rw [buildSlots_cons _ _ _ _ _ hb] at hlen ⊢
      cases rest with
      | nil =>
        simp only [show buildSlots ([] : List Place)
          (c + (parse_duration_to_minutes p.duration).toNat + g) e g = []
          from rfl]
        exact ⟨_, List.getLast?_singleton _, by simp⟩
      | cons q rs =>
        have hlen' : (buildSlots (q :: rs)
            (c + (parse_duration_to_minutes p.duration).toNat + g) e g).length
            = (q :: rs).length := by
          simpa using hlen
        obtain ⟨s, hs, h0⟩ := ih _ hlen' (by simp)
        refine ⟨s, ?_, h0⟩
        obtain ⟨h, t, hht⟩ := List.exists_cons_of_ne_nil
          (show buildSlots (q :: rs)
              (c + (parse_duration_to_minutes p.duration).toNat + g) e g ≠ [] by
            intro hnil
            rw [hnil] at hlen'
            simp at hlen')
        rw [hht] at hs ⊢
        rw [List.getLast?_cons_cons]
        exact hs

theorem dayStayPart_length (r : Request) : (dayStayPart r).length = stayLen r := by
  unfold dayStayPart stayLen
  split_ifs with h1 h2 <;> simp_all

theorem dayTimeline_drop (r : Request) (places : List Place) :
    (dayTimeline r places).drop (stayLen r) =
      buildSlots places (dayCursorInit r) r.dayEndTime
        (travel_time_minutes r.transport) := by
  rw [dayTimeline, ← dayStayPart_length r, List.drop_left]

/-- Every timeline a day of the assembled itinerary carries is `dayTimeline r
places` where `places` is a `dayPlaces` stop list. -/
theorem days_timeline_shape (r : Request) :
    ∀ fuel i used mi d, d ∈ buildDaysAux r fuel i used mi →
      ∃ used2 mi2, d.timeline = dayTimeline r (dayPlaces r used2 mi2).1 := by
  intro fuel
  induction fuel with
  | zero => intro i used mi d hd; simp [buildDaysAux] at hd
  | succ n ih =>
    intro i used mi d hd
    rw [buildDaysAux] at hd
    rcases List.mem_cons.mp hd with rfl | hd
    · exact ⟨used, mi, rfl⟩
    · exact ih _ _ _ d hd

theorem dayTimeline_chain_gap (r : Request) (places : List Place) :
    List.Chain' (fun a b =>
      a.endMin + travel_time_minutes r.transport = b.startMin ∧
      a.travelNext = travel_time_minutes r.transport) (dayTimeline r places) := by
  unfold dayTimeline
  refine List.Chain'.append ?_ (buildSlots_chain _ _ _ _) ?_
  · unfold dayStayPart
    split_ifs <;> simp
  · intro x hx y hy
    unfold dayStayPart at hx
    split_ifs at hx with h
    · simp at hx
      have hst := buildSlots_head_start places (dayCursorInit r) r.dayEndTime
        (travel_time_minutes r.transport) y (Option.mem_def.mp hy)
      subst hx
      refine ⟨?_, rfl⟩
      rw [hst]
      unfold dayCursorInit
      rw [if_pos h]
    · simp at hx

theorem dayTimeline_start_le_end (r : Request) (places : List Place) :
    ∀ s ∈ dayTimeline r places, s.startMin ≤ s.endMin := by
  intro s hs
  rcases List.mem_append.mp hs with hs | hs
  · unfold dayStayPart at hs
    split_ifs at hs with h
    · simp at hs
      subst hs
      simp
    · simp at hs
  · have := (buildSlots_bound places (dayCursorInit r) r.dayEndTime
      (travel_time_minutes r.transport) s hs).2
    omega

theorem dayTimeline_travel_cases (r : Request) (places : List Place) :
    ∀ s ∈ dayTimeline r places,
      s.travelNext = 0 ∨ s.travelNext = travel_time_minutes r.transport := by
  intro s hs
  rcases List.mem_append.mp hs with hs | hs
  · unfold dayStayPart at hs
    split_ifs at hs with h
    · simp at hs
      subst hs
      simp
    · simp at hs
  · exact buildSlots_travel places (dayCursorInit r) r.dayEndTime
      (travel_time_minutes r.transport) s hs

/-- Claim C3 (amended): in every assembled day, slot start/end times are
non-decreasing in list order, and every slot other than the synthetic
stay-location slot ends no later than the day's configured end time, at its
full parsed duration (an overflowing stop is dropped, never truncated).  The
stay slot itself is exempt: it always ends 10 minutes after the day start,
even when that passes the configured end time
(`claimC3_counterexample`). -/
theorem claimC3_amended (r : Request) :
    ∀ d ∈ (build_detailed_itinerary r).days,
      List.Chain' (fun a b => a.endMin ≤ b.startMin) d.timeline ∧
      (∀ s ∈ d.timeline, s.startMin ≤ s.endMin) ∧
      (∀ s ∈ d.timeline.drop (stayLen r),
        s.endMin ≤ r.dayEndTime ∧
        s.endMin = s.startMin + (parse_duration_to_minutes s.place.duration).toNat) := by
  intro d hd
  obtain ⟨u2, m2, htl⟩ :=
    days_timeline_shape r (tripDays r) 0 [] 0 d hd
  rw [htl]
  refine ⟨?_, dayTimeline_start_le_end r (dayPlaces r u2 m2).1, ?_⟩
  · exact (dayTimeline_chain_gap r (dayPlaces r u2 m2).1).imp
      (by intro a b hab; omega)
  · rw [dayTimeline_drop]
    exact buildSlots_bound (dayPlaces r u2 m2).1 (dayCursorInit r) r.dayEndTime
      (travel_time_minutes r.transport)

/-- Witness for C3 at the concrete request `reqBase`, on its first day. -/
theorem claimC3_witness :
    List.Chain' (fun a b => a.endMin ≤ b.startMin)
      ((build_detailed_itinerary reqBase).days.headI.timeline) ∧
    (∀ s ∈ (build_detailed_itinerary reqBase).days.headI.timeline,
      s.startMin ≤ s.endMin) ∧
    (∀ s ∈ (build_detailed_itinerary reqBase).days.headI.timeline.drop
        (stayLen reqBase),
      s.endMin ≤ reqBase.dayEndTime ∧
      s.endMin = s.startMin + (parse_duration_to_minutes s.place.duration).toNat) :=
  claimC3_amended reqBase ((build_detailed_itinerary reqBase).days.headI)
    (by decide)

/-- Claim C4 (amended): in every assembled day, each adjacent slot pair
satisfies `end + gap = next start` (hence `end ≤ next start`) with the
transport-specific gap, and the earlier slot of every such pair carries the
gap as its travel-to-next value; every slot's travel value is either the gap
or zero, and the slot built from the last place of the day's list gets zero —
so the day's last emitted slot carries zero exactly when no trailing stop was
dropped for overflow (and the timeline is not stay-only); after a drop the
last emitted slot keeps the gap (`claimC4_counterexample`). -/
theorem claimC4_amended (r : Request) :
    (∀ d ∈ (build_detailed_itinerary r).days,
      List.Chain' (fun a b =>
        a.endMin + travel_time_minutes r.transport = b.startMin ∧
        a.travelNext = travel_time_minutes r.transport) d.timeline ∧
      (∀ s ∈ d.timeline,
        s.travelNext = 0 ∨ s.travelNext = travel_time_minutes r.transport)) ∧
    (∀ (places : List Place) (c : ℕ),
      (buildSlots places c r.dayEndTime (travel_time_minutes r.transport)).length
          = places.length →
      places ≠ [] →
      ∃ s, (buildSlots places c r.dayEndTime
          (travel_time_minutes r.transport)).getLast? = some s ∧
        s.travelNext = 0) := by
  constructor
  · intro d hd
    obtain ⟨u2, m2, htl⟩ :=
      days_timeline_shape r (tripDays r) 0 [] 0 d hd
    rw [htl]
    exact ⟨dayTimeline_chain_gap r (dayPlaces r u2 m2).1,
      dayTimeline_travel_cases r (dayPlaces r u2 m2).1⟩
  · intro places c hlen hne
    exact buildSlots_last_complete places c r.dayEndTime
      (travel_time_minutes r.transport) hlen hne

/-- Witness for C1 at the concrete request of the worked example. -/
theorem claimC1_witness :
    stopsPerDay "Packed" = 4 ∧ travel_time_minutes "Walking" = 15 ∧
    parse_duration_to_minutes "45–60 min" = 60 ∧
    ∃ lbl rest s0,
      (build_detailed_itinerary
        ⟨"Denver", 739404, 739404, 540, 1200, "Medium", "Packed", ["Food"],
          "Walking", "", "", "Hotel", [], [], []⟩).days = [⟨1, lbl, s0 :: rest⟩] ∧
      s0.startMin = 540 ∧ s0.endMin = 540 + 60 ∧
      slotName s0 = "Local Breakfast Café" ∧ s0.travelNext = 15 :=
  claimC1_amended "Denver" "Medium" "" "Hotel" 739404 540 1200 [] (by norm_num)

/-! ## The stop selector -/

theorem pickFrom_spec (pool : List Place) (n : ℕ) (used avoid : List String) :
    (∀ x, x ∈ (pickFrom pool n used avoid).2 ↔
        x ∈ used ∨ x ∈ (pickFrom pool n used avoid).1.map Place.name) ∧
    ((pickFrom pool n used avoid).1.map Place.name).Nodup ∧
    (∀ p ∈ (pickFrom pool n used avoid).1,
      p.name ∉ used ∧ pyLowerS p.name ∉ avoid) := by
  induction pool generalizing n used with
  | nil => simp [pickFrom]
  | cons p rest ih =>
    match n with
    | 0 => simp [pickFrom]
    | Nat.succ m =>
      by_cases h1 : p.name ∈ used
      · simpa [pickFrom, h1] using ih (m + 1) used
      · by_cases h2 : pyLowerS p.name ∈ avoid
        · simpa [pickFrom, h1, h2] using ih (m + 1) used
        · have hrec := ih m (p.name :: used)
          have hshape : pickFrom (p :: rest) (m + 1) used avoid =
              (p :: (pickFrom rest m (p.name :: used) avoid).1,
               (pickFrom rest m (p.name :: used) avoid).2) := by
            simp [pickFrom, h1, h2]
          rw [hshape]
          obtain ⟨hiff, hnd, hfresh⟩ := hrec
          refine ⟨?_, ?_, ?_⟩
          · intro x
            rw [hiff x]
            simp only [List.map_cons, List.mem_cons]
            tauto
          · refine List.nodup_cons.mpr ⟨?_, hnd⟩
            intro hmem
            obtain ⟨q, hq, hqn⟩ := List.mem_map.mp hmem
            exact (hfresh q hq).1 (by rw [hqn]; simp)
          · intro q hq
            rcases List.mem_cons.mp hq with rfl | hq
            · exact ⟨h1, h2⟩
            · have := hfresh q hq
              refine ⟨fun hmem => this.1 (by simp [hmem]), this.2⟩

theorem pick_places_spec (interests : List String) (n : ℕ)
    (used avoid : List String) :
    (∀ x, x ∈ (pick_places interests n used avoid).2 ↔
        x ∈ used ∨ x ∈ (pick_places interests n used avoid).1.map Place.name) ∧
    ((pick_places interests n used avoid).1.map Place.name).Nodup ∧
    (∀ p ∈ (pick_places interests n used avoid).1,
      p.name ∉ used ∧ pyLowerS p.name ∉ avoid) := by
  simp only [pick_places]
  obtain ⟨hiff1, hnd1, hfresh1⟩ := pickFrom_spec (selectionPool interests) n used avoid
  by_cases hlt : (pickFrom (selectionPool interests) n used avoid).1.length < n
  · simp only [if_pos hlt]
    obtain ⟨hiff2, hnd2, hfresh2⟩ :=
      pickFrom_spec allPlaces
        (n - (pickFrom (selectionPool interests) n used avoid).1.length)
        (pickFrom (selectionPool interests) n used avoid).2 avoid
    refine ⟨?_, ?_, ?_⟩
    · intro x
      rw [hiff2 x, hiff1 x]
      simp only [List.map_append, List.mem_append]
      tauto
    · rw [List.map_append, List.nodup_append]
      refine ⟨hnd1, hnd2, ?_⟩
      intro x hx1 hx2
      obtain ⟨q, hq, hqn⟩ := List.mem_map.mp hx2
      exact (hfresh2 q hq).1 (by rw [hqn]; exact (hiff1 x).mpr (Or.inr hx1))
    · intro q hq
      rcases List.mem_append.mp hq with hq | hq
      · exact hfresh1 q hq
      · have := hfresh2 q hq
        exact ⟨fun hmem => this.1 ((hiff1 q.name).mpr (Or.inl hmem)), this.2⟩
  · simp only [if_neg hlt]
    exact ⟨hiff1, hnd1, hfresh1⟩

theorem takeMust_spec (mv : List String) (q : ℕ) (t : String)
    (avoid used : List String) :
    (∀ x, x ∈ (takeMust mv q t avoid used).2.2 ↔
        x ∈ used ∨ x ∈ (takeMust mv q t avoid used).1.map Place.name) ∧
    List.Sublist ((takeMust mv q t avoid used).1.map Place.name)
      (mv.take (takeMust mv q t avoid used).2.1) ∧
    ((takeMust mv q t avoid used).1.length < q →
      (takeMust mv q t avoid used).2.1 = mv.length) ∧
    (∀ p ∈ (takeMust mv q t avoid used).1, pyLowerS p.name ∉ avoid) := by
  induction mv generalizing q used with
  | nil => simp [takeMust]
  | cons mv0 rest ih =>
    match q with
    | 0 => simp [takeMust]
    | Nat.succ m =>
      by_cases h2 : pyLowerS mv0 ∈ avoid
      · have hshape : takeMust (mv0 :: rest) (m + 1) t avoid used =
            ((takeMust rest (m + 1) t avoid used).1,
             (takeMust rest (m + 1) t avoid used).2.1 + 1,
             (takeMust rest (m + 1) t avoid used).2.2) := by
          simp [takeMust, h2]
        obtain ⟨hiff, hsub, hfull, havoid⟩ := ih (m + 1) used
        rw [hshape]
        refine ⟨hiff, ?_, ?_, havoid⟩
        · simpa using hsub.cons mv0
        · intro hlen
          simp [hfull hlen]
      · have hshape : takeMust (mv0 :: rest) (m + 1) t avoid used =
            (mkMustPlace mv0 t :: (takeMust rest m t avoid (mv0 :: used)).1,
             (takeMust rest m t avoid (mv0 :: used)).2.1 + 1,
             (takeMust rest m t avoid (mv0 :: used)).2.2) := by
          simp [takeMust, h2]
        obtain ⟨hiff, hsub, hfull, havoid⟩ := ih m (mv0 :: used)
        rw [hshape]
        refine ⟨?_, ?_, ?_, ?_⟩
        · intro x
          rw [hiff x]
          simp only [List.map_cons, List.mem_cons, mkMustPlace]
          tauto
        · simpa [mkMustPlace] using hsub.cons₂ mv0
        · intro hlen
          simp only [List.length_cons] at hlen
          simp [hfull (by omega)]
        · intro p hp
          rcases List.mem_cons.mp hp with rfl | hp
          · simpa [mkMustPlace] using h2
          · exact havoid p hp

theorem buildSlots_names_sublist (places : List Place) (c e g : ℕ) :
    List.Sublist ((buildSlots places c e g).map slotName)
      (places.map Place.name) := by
  induction places generalizing c with
  | nil => simp [buildSlots]
  | cons p rest ih =>
    by_cases hb : e < c + (parse_duration_to_minutes p.duration).toNat
    · simp [buildSlots, hb]
    · rw [buildSlots_cons _ _ _ _ _ hb]
      simpa [slotName] using
        (ih (c + (parse_duration_to_minutes p.duration).toNat + g)).cons₂ p.name

theorem dayPlaces_avoidOnly (r : Request) (used : List String) (mi : ℕ) :
    ∀ p ∈ (dayPlaces r used mi).1, pyLowerS p.name ∉ avoidLowerOf r.avoid := by
  intro p hp
  simp only [dayPlaces] at hp
  split_ifs at hp with hlt
  · rcases List.mem_append.mp hp with hp | hp
    · exact (takeMust_spec _ _ _ _ _).2.2.2 p hp
    · exact ((pick_places_spec _ _ _ _).2.2 p hp).2
  · rcases List.mem_append.mp hp with hp | hp
    · exact (takeMust_spec _ _ _ _ _).2.2.2 p hp
    · simp at hp

theorem dayPlaces_spec (r : Request) (used : List String) (mi : ℕ)
    (hnd : r.mustVisit.Nodup)
    (hdisj : ∀ x ∈ r.mustVisit.drop mi, x ∉ used) :
    ((dayPlaces r used mi).1.map Place.name).Nodup ∧
    (∀ x, x ∈ (dayPlaces r used mi).2.1 ↔
        x ∈ used ∨ x ∈ (dayPlaces r used mi).1.map Place.name) ∧
    (∀ p ∈ (dayPlaces r used mi).1, p.name ∉ used) ∧
    (∀ x ∈ r.mustVisit.drop (mi + (dayPlaces r used mi).2.2),
      x ∉ (dayPlaces r used mi).2.1) := by
  have hndD : (r.mustVisit.drop mi).Nodup :=
    hnd.sublist (List.drop_sublist mi r.mustVisit)
  obtain ⟨tiff, tsub, tfull, _⟩ :=
    takeMust_spec (r.mustVisit.drop mi) (stopsPerDay r.pace) r.transport
      (avoidLowerOf r.avoid) used
  simp only [dayPlaces]
  generalize hTM : takeMust (r.mustVisit.drop mi) (stopsPerDay r.pace)
    r.transport (avoidLowerOf r.avoid) used = TM at *
  obtain ⟨TMp, TMk, TMu⟩ := TM
  dsimp only at tiff tsub tfull ⊢
  -- facts shared by both branches
  have tnd : (TMp.map Place.name).Nodup :=
    hndD.sublist (tsub.trans (List.take_sublist _ _))
  have tmem : ∀ x ∈ TMp.map Place.name, x ∈ r.mustVisit.drop mi :=
    fun x hx => List.Sublist.subset (tsub.trans (List.take_sublist _ _)) hx
  have tfresh : ∀ x ∈ TMp.map Place.name, x ∉ used :=
    fun x hx => hdisj x (tmem x hx)
  have hdropEq : r.mustVisit.drop (mi + TMk) =
      (r.mustVisit.drop mi).drop TMk := by
    rw [List.drop_drop, Nat.add_comm]
  have hdisjTD : ∀ x ∈ (r.mustVisit.drop mi).drop TMk,
      x ∉ TMp.map Place.name := by
    intro x hx hmem
    exact (List.disjoint_take_drop hndD le_rfl)
      (tsub.subset hmem) hx
  by_cases hlt : TMp.length < stopsPerDay r.pace
  · simp only [if_pos hlt]
    obtain ⟨piff, pnd, pfresh⟩ :=
      pick_places_spec r.interests (stopsPerDay r.pace - TMp.length) TMu
        (avoidLowerOf r.avoid)
    have hfullk : TMk = (r.mustVisit.drop mi).length := tfull hlt
    have hdropNil : r.mustVisit.drop (mi + TMk) = [] := by
      rw [hdropEq, hfullk, List.drop_length]
    refine ⟨?_, ?_, ?_, ?_⟩
    · rw [List.map_append, List.nodup_append]
      refine ⟨tnd, pnd, ?_⟩
      intro x hx1 hx2
      obtain ⟨qq, hq, hqn⟩ := List.mem_map.mp hx2
      exact (pfresh qq hq).1 (by rw [hqn]; exact (tiff x).mpr (Or.inr hx1))
    · intro x
      rw [piff x, tiff x]
      simp only [List.map_append, List.mem_append]
      tauto
    · intro p hp
      rcases List.mem_append.mp hp with hp | hp
      · exact tfresh p.name (List.mem_map_of_mem Place.name hp)
      · exact fun hmem =>
          (pfresh p hp).1 ((tiff p.name).mpr (Or.inl hmem))
    · intro x hx
      rw [hdropNil] at hx
      simp at hx
  · simp only [if_neg hlt]
    refine ⟨?_, ?_, ?_, ?_⟩
    · simpa using tnd
    · intro x
      rw [tiff x]
      simp
    · intro p hp
      simp only [List.append_nil] at hp
      exact tfresh p.name (List.mem_map_of_mem Place.name hp)
    · intro x hx
      rw [tiff x]
      rw [hdropEq] at hx
      push_neg
      refine ⟨?_, ?_⟩
      · exact hdisj x (List.Sublist.subset (List.drop_sublist _ _) hx)
      · simpa using hdisjTD x hx

theorem mem_foldr_append {α β : Type} (l : List α) (f : α → List β) (x : β) :
    (x ∈ (l.map f).foldr (· ++ ·) []) ↔ ∃ d ∈ l, x ∈ f d := by
  induction l with
  | nil => simp
  | cons a rest ih =>
    simp only [List.map_cons, List.foldr_cons, List.mem_append, ih,
      List.mem_cons]
    constructor
    · rintro (h | ⟨d, hd, hx⟩)
      · exact ⟨a, Or.inl rfl, h⟩
      · exact ⟨d, Or.inr hd, hx⟩
    · rintro ⟨d, rfl | hd, hx⟩
      · exact Or.inl hx
      · exact Or.inr ⟨d, hd, hx⟩

theorem dayStayPart_empty (r : Request) (h : pyStripS r.stayArea = "") :
    dayStayPart r = [] := by
  unfold dayStayPart
  rw [if_neg]
  simp [h]

/-- With no stay area configured, a day's slot names are a sublist of its
stop list's names. -/
theorem dayNames_sublist (r : Request) (h : pyStripS r.stayArea = "")
    (places : List Place) :
    List.Sublist ((dayTimeline r places).map slotName)
      (places.map Place.name) := by
  unfold dayTimeline
  rw [dayStayPart_empty r h]
  simpa using buildSlots_names_sublist places (dayCursorInit r) r.dayEndTime
    (travel_time_minutes r.transport)

theorem buildDaysAux_nodup (r : Request) (hnd : r.mustVisit.Nodup)
    (hstay : pyStripS r.stayArea = "") :
    ∀ fuel i used mi, (∀ x ∈ r.mustVisit.drop mi, x ∉ used) →
      (((buildDaysAux r fuel i used mi).map dayNames).foldr (· ++ ·) []).Nodup ∧
      (∀ x ∈ ((buildDaysAux r fuel i used mi).map dayNames).foldr (· ++ ·) [],
        x ∉ used) := by
  intro fuel
  induction fuel with
  | zero =>
    intro i used mi _
    simp [buildDaysAux]
  | succ n ih =>
    intro i used mi hdisj
    obtain ⟨pnd, piff, pfresh, pdisj⟩ := dayPlaces_spec r used mi hnd hdisj
    obtain ⟨ihnd, ihfresh⟩ :=
      ih (i + 1) (dayPlaces r used mi).2.1 (mi + (dayPlaces r used mi).2.2) pdisj
    have hdshape : buildDaysAux r (n + 1) i used mi =
        (buildOneDay r i used mi).1 ::
          buildDaysAux r n (i + 1) (dayPlaces r used mi).2.1
            (mi + (dayPlaces r used mi).2.2) := rfl
    rw [hdshape]
    simp only [List.map_cons, List.foldr_cons]
    have hdaysub : List.Sublist (dayNames (buildOneDay r i used mi).1)
        ((dayPlaces r used mi).1.map Place.name) := by
      unfold dayNames buildOneDay
      exact dayNames_sublist r hstay (dayPlaces r used mi).1
    have hdaymem : ∀ x ∈ dayNames (buildOneDay r i used mi).1,
        x ∈ (dayPlaces r used mi).1.map Place.name :=
      fun x hx => hdaysub.subset hx
    constructor
    · rw [List.nodup_append]
      refine ⟨pnd.sublist hdaysub, ihnd, ?_⟩
      intro x hx1 hx2
      exact ihfresh x hx2 ((piff x).mpr (Or.inr (hdaymem x hx1)))
    · intro x hx
      rcases List.mem_append.mp hx with hx | hx
      · obtain ⟨p, hp, hpn⟩ := List.mem_map.mp (hdaymem x hx)
        rw [← hpn]
        exact pfresh p hp
      · exact fun hmem => ihfresh x hx ((piff x).mpr (Or.inl hmem))

/-- Claim C2 (amended): within a single generation run, provided the
must-visit list has no duplicate entries and no stay area is configured, no
stop name is used twice across the whole itinerary.  (A configured stay area
repeats its pseudo-stop name on every day — `claimC2_counterexample` — and a
duplicated must-visit entry is placed once per occurrence.) -/
theorem claimC2_amended (r : Request) (hnd : r.mustVisit.Nodup)
    (hstay : pyStripS r.stayArea = "") :
    (allNames (build_detailed_itinerary r)).Nodup :=
  (buildDaysAux_nodup r hnd hstay (tripDays r) 0 [] 0 (by simp)).1

/-- Witness for C2 at the concrete request `reqBase`. -/
theorem claimC2_witness : (allNames (build_detailed_itinerary reqBase)).Nodup :=
  claimC2_amended reqBase (by decide) (by decide)

/-- Claim C7: a must-visit entry whose lowercased name is in the avoid set is
skipped entirely — no slot of the itinerary (outside the synthetic stay slot)
ever carries an avoided name; in the spec's concrete example
(`must_visit = ["Red Rocks"]`, `avoid = ["red rocks"]`) the entry is consumed
without being placed and the day's slots all come from catalog selection,
the first being the first Food-catalog stop. -/
theorem claimC7_avoided_must_visit :
    (∀ (r : Request) (name : String),
      pyLowerS name ∈ avoidLowerOf r.avoid →
      name ∉ nonStayNames r (build_detailed_itinerary r)) ∧
    ((build_detailed_itinerary reqRedRocks).days.map dayNames =
      [["Local Breakfast Café", "Local Market / Food Street",
        "Signature Dinner Spot", "Main City Park / Scenic Viewpoint"]]) ∧
    ("Red Rocks" ∉ allNames (build_detailed_itinerary reqRedRocks)) := by
  refine ⟨?_, by decide, by decide⟩
  intro r name havoid hmem
  obtain ⟨d, hd, hx⟩ := (mem_foldr_append _ _ _).mp hmem
  obtain ⟨u2, m2, htl⟩ := days_timeline_shape r (tripDays r) 0 [] 0 d hd
  rw [htl, dayTimeline_drop] at hx
  have hx2 := (buildSlots_names_sublist (dayPlaces r u2 m2).1 (dayCursorInit r)
    r.dayEndTime (travel_time_minutes r.transport)).subset hx
  obtain ⟨p, hp, hpn⟩ := List.mem_map.mp hx2
  exact dayPlaces_avoidOnly r u2 m2 p hp (by rw [hpn]; exact havoid)

/-! ## Export round-trip, narrative fallback, avoid matching -/

theorem decodeStrList_go (l : List String) :
    decodeStrList.go (l.map Json.str) = some l := by
  induction l with
  | nil => rfl
  | cons s rest ih => simp [decodeStrList.go, ih]

theorem decodeStrList_encode (l : List String) :
    decodeStrList (encodeStrList l) = some l := by
  simp [encodeStrList, decodeStrList, decodeStrList_go]

theorem decodePlace_encode (p : Place) : decodePlace (encodePlace p) = some p := by
  cases p
  simp [encodePlace, decodePlace, decodeStrList_encode]

theorem decodeSlot_encode (s : SlotExport) : decodeSlot (encodeSlot s) = some s := by
  cases s
  simp [encodeSlot, decodeSlot, decodePlace_encode]

theorem decodeSlots_encode (l : List SlotExport) :
    decodeSlots (l.map encodeSlot) = some l := by
  induction l with
  | nil => rfl
  | cons s rest ih => simp [decodeSlots, decodeSlot_encode, ih]

theorem decodeDay_encode (d : DayExport) : decodeDay (encodeDay d) = some d := by
  cases d
  simp [encodeDay, decodeDay, decodeSlots_encode]

theorem decodeDays_encode (l : List DayExport) :
    decodeDays (l.map encodeDay) = some l := by
  induction l with
  | nil => rfl
  | cons d rest ih => simp [decodeDays, decodeDay_encode, ih]

theorem decodeSummary_encode (s : Summary) :
    decodeSummary (encodeSummary s) = some s := by
  cases s
  simp [encodeSummary, decodeSummary, decodeStrList_encode, decodeStr,
    decodeNat]

theorem decodeItin_encode (e : ItinExport) : decodeItin (encodeItin e) = some e := by
  cases e
  simp [encodeItin, decodeItin, decodeSummary_encode, decodeDays_encode]

/-- Claim C8: for every itinerary produced by the assembler, serializing its
stored/export form to the export JSON shape and parsing that JSON back yields
the original value (lossless round-trip).  The deserializer is modelled from
the spec (§6): the repository only writes this JSON. -/
theorem claimC8_roundtrip (r : Request) :
    decodeItin (encodeItin (toExport (build_detailed_itinerary r))) =
      some (toExport (build_detailed_itinerary r)) :=
  decodeItin_encode _

/-- Claim C9: the narrative-rewrite call never propagates an error — a
missing/blank credential or any failing external call (network or module
loading failure, malformed response) yields `none` rather than an exception —
and with the toggle on and a `none` result the render path shows the passive
notice followed by the locally generated per-stop explanations. -/
theorem claimC9_ai_failure_fallback :
    (∀ (key : String) (res : Except Unit String),
      pyStripS key = "" → ai_rewrite_day_narrative key res = none) ∧
    (∀ (key : String) (e : Unit),
      ai_rewrite_day_narrative key (Except.error e) = none) ∧
    (∀ (key : String) (res : Except Unit String),
      ai_rewrite_day_narrative key res = none ∨
        ∃ content, res = Except.ok content ∧
          ai_rewrite_day_narrative key res = some (pyStripS content)) ∧
    (∀ (day : DayExport) (summary : Summary),
      renderDayTexts true none day summary =
        aiUnavailableNotice :: localExplanations day summary) := by
  refine ⟨?_, ?_, ?_, ?_⟩
  · intro key res h
    simp [ai_rewrite_day_narrative, h]
  · intro key e
    unfold ai_rewrite_day_narrative
    split_ifs <;> rfl
  · intro key res
    unfold ai_rewrite_day_narrative
    split_ifs with h
    · exact Or.inl rfl
    · cases res with
      | error e => exact Or.inl rfl
      | ok content => exact Or.inr ⟨content, rfl, rfl⟩
  · intro day summary
    rfl

/-- Claim C10: avoid-list filtering is exact whole-name matching — a name's
lowercase form is in the avoid set exactly when some avoid term, stripped and
lowercased, equals the entire lowercased name; selection never returns a stop
whose lowercased name is in the avoid set; and a term matching only part of a
name excludes nothing (the avoid term `"museums"` leaves
`"Main Museum / Cultural Center"` selected, while avoiding the full name
removes it). -/
theorem claimC10_avoid_exact_match :
    (∀ (avoid : List String) (name : String),
      pyLowerS name ∈ avoidLowerOf avoid ↔
        ∃ a ∈ avoid, pyStripS a ≠ "" ∧ pyLowerS (pyStripS a) = pyLowerS name) ∧
    (∀ (interests : List String) (n : ℕ) (used avoid : List String),
      ∀ p ∈ (pick_places interests n used avoid).1, pyLowerS p.name ∉ avoid) ∧
    ((pick_places ["History"] 2 [] (avoidLowerOf ["museums"])).1.map Place.name
      = ["Historic Old Town Walk", "Main Museum / Cultural Center"]) ∧
    ((pick_places ["History"] 2 []
        (avoidLowerOf ["Main Museum / Cultural Center"])).1.map Place.name
      = ["Historic Old Town Walk", "Local Breakfast Café"]) := by
  refine ⟨?_, ?_, by decide, by decide⟩
  · intro avoid name
    unfold avoidLowerOf
    simp only [List.mem_map, List.mem_filter, decide_eq_true_eq]
    constructor
    · rintro ⟨a, ⟨ha, hs⟩, he⟩
      exact ⟨a, ha, hs, he⟩
    · rintro ⟨a, ha, hs, he⟩
      exact ⟨a, ⟨ha, hs⟩, he⟩
  · intro interests n used avoid p hp
    exact ((pick_places_spec interests n used avoid).2.2 p hp).2

end TravelPlanner
